import Mathlib

/-!
Verification development for the grid trading bot repository
(src/indodax_grid_bot.py and src/arif-bot.py).

Shallow embedding conventions:
* prices and grid levels are integers (IDR), as in the sources;
* Python float balances/amounts are idealized as exact rationals (ℚ);
* the SIMULATION branches are modelled: they are the only branches that
  mutate the ledger (LIVE branches call the exchange API and are out of
  scope per the spec);
* Python `//` is `Int.fdiv`, Python `int(...)` truncation toward zero is
  `truncQ`, Python `range` is `pyRange` (`none` models the `ValueError`
  raised when step = 0).
-/

namespace GridBot

/-- Kinds of ledger-mutating actions the bots log per tick. -/
inductive Action where
  | buy
  | sell
  | slSell
  | tpSell
  deriving DecidableEq, Repr

/-- Ledger state of `indodax_grid_bot.main` (simulation mode):
`balance_idr`, `balance_btc`, `last_buy_price` (None or an int price). -/
structure BotState where
  idr : ℚ
  btc : ℚ
  lastBuy : Option ℤ
  deriving DecidableEq, Repr

/-- Configuration globals of `indodax_grid_bot.py`:
`TOLERANCE`, `MAX_IDR_PER_ORDER`, `STOP_LOSS_PCT`, `TAKE_PROFIT_PCT`. -/
structure Config where
  tolerance : ℤ
  maxIdrPerOrder : ℚ
  stopLossPct : ℚ
  takeProfitPct : ℚ

/-- The default configuration values of the source
(`50000`, `500000`, `0.05`, `0.03`). -/
def defaultConfig : Config :=
  { tolerance := 50000, maxIdrPerOrder := 500000,
    stopLossPct := 1/20, takeProfitPct := 3/100 }

/-- `pick_trade_amount(idr_balance)` (indodax_grid_bot.py lines 121-133):
adaptive tier size from the free IDR balance. -/
def pick_trade_amount (idr_balance : ℚ) : ℚ :=
  if idr_balance < 500000 then 1/100000
  else if idr_balance < 5000000 then 5/100000
  else if idr_balance < 50000000 then 1/10000
  else 1/1000

/-- The amount `main` actually trades (lines 205-209): `pick_trade_amount`
clamped down to `MAX_IDR_PER_ORDER / price` when the expected cost
`price * adaptive_amount` exceeds `MAX_IDR_PER_ORDER`. -/
def adaptive_amount (cfg : Config) (price : ℤ) (idr_balance : ℚ) : ℚ :=
  let a := pick_trade_amount idr_balance
  if (price : ℚ) * a > cfg.maxIdrPerOrder then cfg.maxIdrPerOrder / (price : ℚ) else a

/-- `min(grid_levels, key=lambda x: abs(x - price))` (line 201 of
indodax_grid_bot.py, line 140 of arif-bot.py). Python `min` returns the
first element attaining the minimal key, so on an ascending grid ties go
to the lower level. Python raises `ValueError` on an empty sequence; both
bots only call this on non-empty grids, and we return 0 in that
unreachable case. -/
def nearest_level (grid : List ℤ) (price : ℤ) : ℤ :=
  match grid with
  | [] => 0
  | g :: gs => gs.foldl (fun best x => if |x - price| < |best - price| then x else best) g

/-- The simulated buy mutation (lines 222-225): debit IDR by
`price * amount`, credit BTC by `amount`, record `last_buy_price = price`. -/
def simBuy (price : ℤ) (amount : ℚ) (s : BotState) : BotState :=
  { idr := s.idr - (price : ℚ) * amount, btc := s.btc + amount, lastBuy := some price }

/-- The simulated sell mutation (lines 239-242): debit BTC by `amount`,
credit IDR by `price * amount`, reset `last_buy_price = None`. -/
def simSell (price : ℤ) (amount : ℚ) (s : BotState) : BotState :=
  { idr := s.idr + (price : ℚ) * amount, btc := s.btc - amount, lastBuy := none }

/-- The grid trigger section of `main` (lines 211-246): the BUY branch, and
the SELL branch on its `elif`. `closest` is the nearest grid level already
computed by the caller. -/
def gridPhase (cfg : Config) (closest price : ℤ) (s : BotState) : BotState × List Action :=
  let amt := adaptive_amount cfg price s.idr
  if price ≤ closest + cfg.tolerance ∧ s.idr ≥ (price : ℚ) * amt ∧ amt > 0 then
    (simBuy price amt s, [Action.buy])
  else if price ≥ closest - cfg.tolerance ∧ s.btc ≥ amt ∧ amt > 0 then
    (simSell price (min amt s.btc) s, [Action.sell])
  else (s, [])

/-- The stop-loss / take-profit section of `main` (lines 248-278), run after
the grid section on whatever `last_buy_price` is then recorded. The Python
guard `if last_buy_price:` is falsy both for `None` and for the int `0`. -/
def riskPhase (cfg : Config) (price : ℤ) (s : BotState) : BotState × List Action :=
  match s.lastBuy with
  | none => (s, [])
  | some e =>
    if e = 0 then (s, [])
    else
      if (price : ℚ) ≤ (e : ℚ) * (1 - cfg.stopLossPct) ∧ s.btc > 0 then
        ({ idr := s.idr + (price : ℚ) * s.btc, btc := 0, lastBuy := none }, [Action.slSell])
      else if (price : ℚ) ≥ (e : ℚ) * (1 + cfg.takeProfitPct) ∧ s.btc > 0 then
        ({ idr := s.idr + (price : ℚ) * s.btc, btc := 0, lastBuy := none }, [Action.tpSell])
      else (s, [])

/-- One tick of the `main` loop in SIMULATION mode, at a given price and
grid: the zero-portfolio emergency stop (lines 192-198, a no-op halt), the
grid buy/sell section, then the stop-loss/take-profit section. Returns the
new ledger state and the actions logged this tick. -/
def tick (cfg : Config) (grid : List ℤ) (price : ℤ) (s : BotState) : BotState × List Action :=
  if s.idr + s.btc * (price : ℚ) ≤ 0 then (s, [])
  else
    let r1 := gridPhase cfg (nearest_level grid price) price s
    let r2 := riskPhase cfg price r1.1
    (r2.1, r1.2 ++ r2.2)

/-- A run of the main loop over a list of (grid, price) pairs; the grid is
per-tick because `main` rebuilds it every 30 ticks (line 183). -/
def runTicks (cfg : Config) (steps : List (List ℤ × ℤ)) (s : BotState) : BotState :=
  steps.foldl (fun st gp => (tick cfg gp.1 gp.2 st).1) s

/-- Python `int(...)` applied to a (here: exact rational) number: truncation
toward zero. -/
def truncQ (q : ℚ) : ℤ :=
  if 0 ≤ q then ⌊q⌋ else -⌊-q⌋

/-- Python `range(a, b, s)` as a list: `none` models the `ValueError` raised
when the step is zero; otherwise the standard length formula
`max 0 ⌈(b - a) / s⌉` elements `a, a + s, a + 2s, ...`. -/
def pyRange (a b s : ℤ) : Option (List ℤ) :=
  if s = 0 then none
  else
    let len : ℤ := if 0 < s then (b - a + s - 1).fdiv s else (a - b - s - 1).fdiv (-s)
    some ((List.range len.toNat).map (fun i : ℕ => a + (i : ℤ) * s))

/-- `build_grid_around(price)` (lines 136-145), with the globals
`GRID_PERCENT` and `GRID_STEP` as parameters: truncate
`price * (1 ∓ percent)` to ints, align both down to a multiple of the step
with Python floor division, widen degenerate grids to `low + 10 * step`,
and list `range(low, high + step, step)`. -/
def build_grid_around (gridPercent : ℚ) (gridStep : ℤ) (price : ℤ) : Option (List ℤ) :=
  let low0 := truncQ ((price : ℚ) * (1 - gridPercent))
  let high0 := truncQ ((price : ℚ) * (1 + gridPercent))
  let low := low0.fdiv gridStep * gridStep
  let high1 := high0.fdiv gridStep * gridStep
  let high := if high1 ≤ low then low + gridStep * 10 else high1
  pyRange low (high + gridStep) gridStep

/-- Modelled from the spec (section 4.1 Grid Calculator), for comparison
with `build_grid_around`: `low = reference_price * (1 - spread_fraction)`
and `high = reference_price * (1 + spread_fraction)`, "each floor-aligned
down to the nearest multiple of step" (for a positive step,
`step * ⌊x / step⌋ = (⌊x⌋).fdiv step * step`), the degenerate-width guard
`high = low + 10 * step` when `high ≤ low`, and "the closed sequence
`low, low + step, ..., high` inclusive". -/
def specGridAround (spreadFraction : ℚ) (step price : ℤ) : List ℤ :=
  let low := (⌊(price : ℚ) * (1 - spreadFraction)⌋).fdiv step * step
  let high0 := (⌊(price : ℚ) * (1 + spreadFraction)⌋).fdiv step * step
  let high := if high0 ≤ low then low + step * 10 else high0
  (List.range (((high - low).fdiv step).toNat + 1)).map (fun i : ℕ => low + (i : ℤ) * step)

/-- The fold that `nearest_level` performs on a non-empty grid. -/
def nearestFold (p g : ℤ) (gs : List ℤ) : ℤ :=
  gs.foldl (fun best x => if |x - p| < |best - p| then x else best) g

end GridBot

namespace Arif

/-- arif-bot.py configuration constants (lines 12-17, 28-29). -/
def GRID_LOW : ℤ := 1835000000

def GRID_HIGH : ℤ := 1845000000

def GRID_STEP : ℤ := 50000

def TOLERANCE : ℤ := 50000

def TRADE_AMOUNT : ℚ := 1/100000

/-- Global mutable state of arif-bot.py: `saldo_idr`, `saldo_btc` and the
FIFO `open_positions` list of `(buy_price, amount)` records. -/
structure State where
  saldo_idr : ℚ
  saldo_btc : ℚ
  open_positions : List (ℤ × ℚ)
  deriving DecidableEq, Repr

/-- `generate_grid()` (line 70-71):
`range(GRID_LOW, GRID_HIGH + GRID_STEP, GRID_STEP)`. -/
def generate_grid : List ℤ :=
  (GridBot.pyRange GRID_LOW (GRID_HIGH + GRID_STEP) GRID_STEP).getD []

/-- `execute_buy(price)` (lines 76-87): re-checks the balance, then debits
IDR, credits BTC and appends a FIFO position; a no-op (only a debug print)
when the balance is short. Also returns the actions logged. -/
def execute_buy (price : ℤ) (s : State) : State × List GridBot.Action :=
  let total_cost := (price : ℚ) * TRADE_AMOUNT
  if s.saldo_idr ≥ total_cost then
    ({ saldo_idr := s.saldo_idr - total_cost,
       saldo_btc := s.saldo_btc + TRADE_AMOUNT,
       open_positions := s.open_positions ++ [(price, TRADE_AMOUNT)] },
     [GridBot.Action.buy])
  else (s, [])

/-- `execute_sell(price)` (lines 92-106): pops the oldest position and sells
its amount at the given price; a no-op when no position is open. -/
def execute_sell (price : ℤ) (s : State) : State × List GridBot.Action :=
  match s.open_positions with
  | [] => (s, [])
  | pos :: rest =>
    ({ saldo_idr := s.saldo_idr + (price : ℚ) * pos.2,
       saldo_btc := s.saldo_btc - pos.2,
       open_positions := rest },
     [GridBot.Action.sell])

/-- One iteration of the arif-bot `main` loop body at a given price
(lines 132-155): the BUY check and the SELL check are two independent
`if` statements, the SELL check reading the state already updated by the
BUY, and gated by the profit condition `price > open_positions[0].buy_price`. -/
def tick (price : ℤ) (s : State) : State × List GridBot.Action :=
  let closest := GridBot.nearest_level generate_grid price
  let r1 :=
    if price ≤ closest + TOLERANCE ∧ s.saldo_idr ≥ (price : ℚ) * TRADE_AMOUNT then
      execute_buy price s
    else (s, [])
  let r2 :=
    if price ≥ closest - TOLERANCE ∧ r1.1.saldo_btc ≥ TRADE_AMOUNT ∧ r1.1.open_positions ≠ [] then
      match r1.1.open_positions with
      | [] => (r1.1, [])
      | pos :: _ => if pos.1 < price then execute_sell price r1.1 else (r1.1, [])
    else (r1.1, [])
  (r2.1, r1.2 ++ r2.2)

/-- A run of the arif-bot loop over a list of prices. -/
def run (prices : List ℤ) (s : State) : State :=
  prices.foldl (fun st p => (tick p st).1) s

/-- The reachable-state invariant of arif-bot: balances are non-negative and
every open position carries exactly `TRADE_AMOUNT` (positions are only ever
created by `execute_buy`). It holds for the program start state
(`500000`, `0`, no positions). -/
def Inv (s : State) : Prop :=
  0 ≤ s.saldo_idr ∧ 0 ≤ s.saldo_btc ∧ ∀ pos ∈ s.open_positions, pos.2 = TRADE_AMOUNT

end Arif

namespace GridBot

/-! Helper lemmas about `nearest_level`. -/

lemma nearest_level_eq_fold (g : ℤ) (gs : List ℤ) (p : ℤ) :
    nearest_level (g :: gs) p = nearestFold p g gs := rfl

/-- First-minimum specification of the fold inside `nearest_level`: on a
strictly ascending tail whose elements all exceed the seed, the result is
among the candidates, attains the minimal distance to `p`, and on any
distance tie is the smallest such candidate. -/
lemma nearestFold_spec (p : ℤ) :
    ∀ (gs : List ℤ) (g : ℤ), (∀ x ∈ gs, g < x) → gs.Pairwise (· < ·) →
      (nearestFold p g gs = g ∨ nearestFold p g gs ∈ gs) ∧
      |nearestFold p g gs - p| ≤ |g - p| ∧
      (∀ x ∈ gs, |nearestFold p g gs - p| ≤ |x - p|) ∧
      (|g - p| = |nearestFold p g gs - p| → nearestFold p g gs ≤ g) ∧
      (∀ x ∈ gs, |x - p| = |nearestFold p g gs - p| → nearestFold p g gs ≤ x)
  | [], g, _, _ => by
    simp [nearestFold]
  | x0 :: rest, g, hlt, hpw => by
    have hx0 : g < x0 := hlt x0 (List.mem_cons_self x0 rest)
    have hrest_pw : rest.Pairwise (· < ·) := (List.pairwise_cons.mp hpw).2
    have hx0rest : ∀ x ∈ rest, x0 < x := (List.pairwise_cons.mp hpw).1
    by_cases hc : |x0 - p| < |g - p|
    · have hfold : nearestFold p g (x0 :: rest) = nearestFold p x0 rest := by
        simp [nearestFold, if_pos hc]
      obtain ⟨ihMem, ihSeed, ihMin, ihSeedTie, ihTie⟩ :=
        nearestFold_spec p rest x0 hx0rest hrest_pw
      rw [hfold]
      refine ⟨?_, ?_, ?_, ?_, ?_⟩
      · rcases ihMem with h | h
        · exact Or.inr (by rw [h]; exact List.mem_cons_self x0 rest)
        · exact Or.inr (List.mem_cons_of_mem x0 h)
      · exact le_of_lt (lt_of_le_of_lt ihSeed hc)
      · intro x hx
        rcases List.mem_cons.mp hx with rfl | hx
        · exact ihSeed
        · exact ihMin x hx
      · intro htie
        have := lt_of_le_of_lt ihSeed hc
        omega
      · intro x hx htie
        rcases List.mem_cons.mp hx with rfl | hx
        · exact ihSeedTie htie
        · exact ihTie x hx htie
    · have hfold : nearestFold p g (x0 :: rest) = nearestFold p g rest := by
        simp [nearestFold, if_neg hc]
      obtain ⟨ihMem, ihSeed, ihMin, ihSeedTie, ihTie⟩ :=
        nearestFold_spec p rest g (fun x hx => lt_trans hx0 (hx0rest x hx)) hrest_pw
      rw [hfold]
      refine ⟨?_, ?_, ?_, ?_, ?_⟩
      · rcases ihMem with h | h
        · exact Or.inl h
        · exact Or.inr (List.mem_cons_of_mem x0 h)
      · exact ihSeed
      · intro x hx
        rcases List.mem_cons.mp hx with rfl | hx
        · exact le_trans ihSeed (not_lt.mp hc)
        · exact ihMin x hx
      · exact ihSeedTie
      · intro x hx htie
        rcases List.mem_cons.mp hx with rfl | hx
        · have hge : |g - p| ≤ |x - p| := not_lt.mp hc
          have heq : |g - p| = |nearestFold p g rest - p| := by omega
          exact le_trans (ihSeedTie heq) (le_of_lt hx0)
        · exact ihTie x hx htie

/-- Packaged specification of `nearest_level` on a non-empty strictly
increasing grid. -/
lemma nearest_level_spec (g : ℤ) (gs : List ℤ) (p : ℤ)
    (hpw : (g :: gs).Pairwise (· < ·)) :
    nearest_level (g :: gs) p ∈ g :: gs ∧
    (∀ l ∈ g :: gs, |nearest_level (g :: gs) p - p| ≤ |l - p|) ∧
    (∀ l ∈ g :: gs, |l - p| = |nearest_level (g :: gs) p - p| →
      nearest_level (g :: gs) p ≤ l) := by
  obtain ⟨hMem, hSeed, hMin, hSeedTie, hTie⟩ :=
    nearestFold_spec p gs g (List.pairwise_cons.mp hpw).1 (List.pairwise_cons.mp hpw).2
  rw [nearest_level_eq_fold]
  refine ⟨?_, ?_, ?_⟩
  · rcases hMem with h | h
    · rw [h]; exact List.mem_cons_self g gs
    · exact List.mem_cons_of_mem g h
  · intro l hl
    rcases List.mem_cons.mp hl with rfl | hl
    · exact hSeed
    · exact hMin l hl
  · intro l hl htie
    rcases List.mem_cons.mp hl with rfl | hl
    · exact hSeedTie htie
    · exact hTie l hl htie

/-- If the price itself is a grid level of a strictly increasing grid, it is
its own nearest level. -/
lemma nearest_level_self (g : ℤ) (gs : List ℤ) (p : ℤ)
    (hpw : (g :: gs).Pairwise (· < ·)) (hmem : p ∈ g :: gs) :
    nearest_level (g :: gs) p = p := by
  obtain ⟨-, hMin, -⟩ := nearest_level_spec g gs p hpw
  have h0 : |nearest_level (g :: gs) p - p| ≤ |p - p| := hMin p hmem
  rw [sub_self, abs_zero] at h0
  have h1 : nearest_level (g :: gs) p - p = 0 := abs_nonpos_iff.mp h0
  omega

/-! Helper lemmas about arithmetic range lists. -/

/-- The arithmetic lists produced by `pyRange` (and `specGridAround`) are
strictly increasing for a positive step. -/
lemma rangeMap_pairwise (a s : ℤ) (hs : 0 < s) (n : ℕ) :
    ((List.range n).map (fun i : ℕ => a + (i : ℤ) * s)).Pairwise (· < ·) := by
  refine (List.pairwise_lt_range n).map _ ?_
  intro i j hij
  have : (i : ℤ) < (j : ℤ) := by exact_mod_cast hij
  have := mul_lt_mul_of_pos_right this hs
  omega

/-- Consecutive elements of an arithmetic range list differ by the step. -/
lemma rangeMap_chain (a s : ℤ) (n : ℕ) :
    List.Chain' (fun x y => y = x + s) ((List.range n).map (fun i : ℕ => a + (i : ℤ) * s)) := by
  rw [List.chain'_map]
  cases n with
  | zero => simp
  | succ m =>
    rw [List.chain'_range_succ]
    intro i hi
    push_cast
    ring

/-! Branch lemmas for the tick of indodax_grid_bot. -/

lemma gridPhase_buy (cfg : Config) (closest price : ℤ) (s : BotState)
    (hb : price ≤ closest + cfg.tolerance ∧
      s.idr ≥ (price : ℚ) * adaptive_amount cfg price s.idr ∧
      adaptive_amount cfg price s.idr > 0) :
    gridPhase cfg closest price s =
      (simBuy price (adaptive_amount cfg price s.idr) s, [Action.buy]) := by
  simp only [gridPhase]
  rw [if_pos hb]

lemma gridPhase_sell (cfg : Config) (closest price : ℤ) (s : BotState)
    (hnb : ¬(price ≤ closest + cfg.tolerance ∧
      s.idr ≥ (price : ℚ) * adaptive_amount cfg price s.idr ∧
      adaptive_amount cfg price s.idr > 0))
    (hs : price ≥ closest - cfg.tolerance ∧ s.btc ≥ adaptive_amount cfg price s.idr ∧
      adaptive_amount cfg price s.idr > 0) :
    gridPhase cfg closest price s =
      (simSell price (min (adaptive_amount cfg price s.idr) s.btc) s, [Action.sell]) := by
  simp only [gridPhase]
  rw [if_neg hnb, if_pos hs]

lemma gridPhase_skip (cfg : Config) (closest price : ℤ) (s : BotState)
    (hnb : ¬(price ≤ closest + cfg.tolerance ∧
      s.idr ≥ (price : ℚ) * adaptive_amount cfg price s.idr ∧
      adaptive_amount cfg price s.idr > 0))
    (hns : ¬(price ≥ closest - cfg.tolerance ∧ s.btc ≥ adaptive_amount cfg price s.idr ∧
      adaptive_amount cfg price s.idr > 0)) :
    gridPhase cfg closest price s = (s, []) := by
  simp only [gridPhase]
  rw [if_neg hnb, if_neg hns]

lemma riskPhase_noEntry (cfg : Config) (price : ℤ) (s : BotState)
    (h : s.lastBuy = none) : riskPhase cfg price s = (s, []) := by
  simp only [riskPhase, h]

lemma riskPhase_sl (cfg : Config) (price : ℤ) (s : BotState) (e : ℤ)
    (he : s.lastBuy = some e) (he0 : ¬e = 0)
    (hsl : (price : ℚ) ≤ (e : ℚ) * (1 - cfg.stopLossPct) ∧ s.btc > 0) :
    riskPhase cfg price s =
      ({ idr := s.idr + (price : ℚ) * s.btc, btc := 0, lastBuy := none }, [Action.slSell]) := by
  simp only [riskPhase, he]
  rw [if_neg he0, if_pos hsl]

lemma riskPhase_tp (cfg : Config) (price : ℤ) (s : BotState) (e : ℤ)
    (he : s.lastBuy = some e) (he0 : ¬e = 0)
    (hnsl : ¬((price : ℚ) ≤ (e : ℚ) * (1 - cfg.stopLossPct) ∧ s.btc > 0))
    (htp : (price : ℚ) ≥ (e : ℚ) * (1 + cfg.takeProfitPct) ∧ s.btc > 0) :
    riskPhase cfg price s =
      ({ idr := s.idr + (price : ℚ) * s.btc, btc := 0, lastBuy := none }, [Action.tpSell]) := by
  simp only [riskPhase, he]
  rw [if_neg he0, if_neg hnsl, if_pos htp]

lemma tick_eq (cfg : Config) (grid : List ℤ) (price : ℤ) (s : BotState)
    (hpv : ¬(s.idr + s.btc * (price : ℚ) ≤ 0)) :
    tick cfg grid price s =
      ((riskPhase cfg price (gridPhase cfg (nearest_level grid price) price s).1).1,
        (gridPhase cfg (nearest_level grid price) price s).2 ++
          (riskPhase cfg price (gridPhase cfg (nearest_level grid price) price s).1).2) := by
  simp only [tick]
  rw [if_neg hpv]

/-! Non-negativity of balances through a tick. -/

lemma gridPhase_nonneg (cfg : Config) (closest price : ℤ) (s : BotState)
    (hp : 0 < price) (h1 : 0 ≤ s.idr) (h2 : 0 ≤ s.btc) :
    0 ≤ (gridPhase cfg closest price s).1.idr ∧ 0 ≤ (gridPhase cfg closest price s).1.btc := by
  have hpQ : (0 : ℚ) < (price : ℚ) := by exact_mod_cast hp
  simp only [gridPhase, simBuy, simSell]
  split_ifs with hb hs <;> dsimp only
  · exact ⟨by linarith [hb.2.1], by linarith [hb.2.2]⟩
  · constructor
    · have hmn : 0 ≤ (price : ℚ) * min (adaptive_amount cfg price s.idr) s.btc :=
        mul_nonneg hpQ.le (le_min hs.2.2.le h2)
      linarith
    · have := min_le_right (adaptive_amount cfg price s.idr) s.btc
      linarith
  · exact ⟨h1, h2⟩

lemma riskPhase_nonneg (cfg : Config) (price : ℤ) (s : BotState)
    (hp : 0 < price) (h1 : 0 ≤ s.idr) (h2 : 0 ≤ s.btc) :
    0 ≤ (riskPhase cfg price s).1.idr ∧ 0 ≤ (riskPhase cfg price s).1.btc := by
  have hpQ : (0 : ℚ) < (price : ℚ) := by exact_mod_cast hp
  rcases hLB : s.lastBuy with _ | e
  · simp only [riskPhase, hLB]
    exact ⟨h1, h2⟩
  · simp only [riskPhase, hLB]
    split_ifs with h0 hsl htp <;> dsimp only
    · exact ⟨h1, h2⟩
    · refine ⟨?_, le_refl 0⟩
      have : 0 ≤ (price : ℚ) * s.btc := mul_nonneg hpQ.le h2
      linarith
    · refine ⟨?_, le_refl 0⟩
      have : 0 ≤ (price : ℚ) * s.btc := mul_nonneg hpQ.le h2
      linarith
    · exact ⟨h1, h2⟩

lemma tick_nonneg (cfg : Config) (grid : List ℤ) (price : ℤ) (s : BotState)
    (hp : 0 < price) (h1 : 0 ≤ s.idr) (h2 : 0 ≤ s.btc) :
    0 ≤ (tick cfg grid price s).1.idr ∧ 0 ≤ (tick cfg grid price s).1.btc := by
  by_cases hpv : s.idr + s.btc * (price : ℚ) ≤ 0
  · simp only [tick, if_pos hpv]
    exact ⟨h1, h2⟩
  · rw [tick_eq cfg grid price s hpv]
    obtain ⟨g1, g2⟩ := gridPhase_nonneg cfg (nearest_level grid price) price s hp h1 h2
    exact riskPhase_nonneg cfg price _ hp g1 g2

lemma runTicks_nonneg (cfg : Config) :
    ∀ (steps : List (List ℤ × ℤ)) (s : BotState), (∀ gp ∈ steps, 0 < gp.2) →
      0 ≤ s.idr → 0 ≤ s.btc →
      0 ≤ (runTicks cfg steps s).idr ∧ 0 ≤ (runTicks cfg steps s).btc
  | [], s, _, h1, h2 => ⟨h1, h2⟩
  | gp :: rest, s, hpr, h1, h2 => by
    obtain ⟨t1, t2⟩ := tick_nonneg cfg gp.1 gp.2 s (hpr gp (List.mem_cons_self gp rest)) h1 h2
    exact runTicks_nonneg cfg rest (tick cfg gp.1 gp.2 s).1
      (fun q hq => hpr q (List.mem_cons_of_mem gp hq)) t1 t2

end GridBot

namespace Arif

/-! Invariant preservation for arif-bot. -/

lemma trade_amount_pos : (0 : ℚ) < TRADE_AMOUNT := by
  norm_num [TRADE_AMOUNT]

lemma execute_buy_inv (price : ℤ) (s : State) (h : Inv s) :
    Inv (execute_buy price s).1 := by
  obtain ⟨h1, h2, h3⟩ := h
  simp only [execute_buy]
  split_ifs with hb
  · refine ⟨?_, ?_, ?_⟩
    · show 0 ≤ s.saldo_idr - (price : ℚ) * TRADE_AMOUNT
      linarith [hb]
    · show 0 ≤ s.saldo_btc + TRADE_AMOUNT
      linarith [trade_amount_pos]
    · show ∀ pos ∈ s.open_positions ++ [((price : ℤ), TRADE_AMOUNT)], pos.2 = TRADE_AMOUNT
      intro pos hpos
      rcases List.mem_append.mp hpos with hpos | hpos
      · exact h3 pos hpos
      · rcases List.mem_singleton.mp hpos with rfl
        rfl
  · exact ⟨h1, h2, h3⟩

lemma execute_sell_inv (price : ℤ) (s : State) (hp : 0 < price) (h : Inv s)
    (hbal : TRADE_AMOUNT ≤ s.saldo_btc) :
    Inv (execute_sell price s).1 := by
  obtain ⟨h1, h2, h3⟩ := h
  have hpQ : (0 : ℚ) < (price : ℚ) := by exact_mod_cast hp
  rcases hop : s.open_positions with _ | ⟨pos, rest⟩
  · simp only [execute_sell, hop]
    exact ⟨h1, h2, h3⟩
  · simp only [execute_sell, hop]
    have hamt : pos.2 = TRADE_AMOUNT := h3 pos (by rw [hop]; exact List.mem_cons_self pos rest)
    refine ⟨?_, ?_, ?_⟩
    · have hm : 0 ≤ (price : ℚ) * pos.2 :=
        mul_nonneg hpQ.le (by rw [hamt]; exact trade_amount_pos.le)
      show 0 ≤ s.saldo_idr + (price : ℚ) * pos.2
      linarith
    · show 0 ≤ s.saldo_btc - pos.2
      rw [hamt]
      linarith
    · show ∀ q ∈ rest, q.2 = TRADE_AMOUNT
      intro q hq
      exact h3 q (by rw [hop]; exact List.mem_cons_of_mem pos hq)

lemma tick_inv (price : ℤ) (s : State) (hp : 0 < price) (h : Inv s) :
    Inv ((tick price s).1) := by
  simp only [tick]
  generalize GridBot.nearest_level generate_grid price = closest
  have hi1 : Inv (if price ≤ closest + TOLERANCE ∧
      s.saldo_idr ≥ (price : ℚ) * TRADE_AMOUNT then execute_buy price s else (s, [])).1 := by
    split_ifs with hb
    · exact execute_buy_inv price s h
    · exact h
  set r1 := if price ≤ closest + TOLERANCE ∧
      s.saldo_idr ≥ (price : ℚ) * TRADE_AMOUNT then execute_buy price s else (s, []) with hr1
  split_ifs with hs2
  · rcases hop : r1.1.open_positions with _ | ⟨pos, rest⟩
    · exact hi1
    · simp only [hop]
      split_ifs with hprofit
      · exact execute_sell_inv price r1.1 hp hi1 hs2.2.1
      · exact hi1
  · exact hi1

lemma run_inv : ∀ (prices : List ℤ) (s : State), (∀ p ∈ prices, 0 < p) → Inv s →
    Inv (run prices s)
  | [], _, _, h => h
  | p :: rest, s, hpr, h =>
    run_inv rest (tick p s).1 (fun q hq => hpr q (List.mem_cons_of_mem p hq))
      (tick_inv p s (hpr p (List.mem_cons_self p rest)) h)

end Arif

namespace GridBot

/-! Arithmetic of `build_grid_around` versus the spec description. -/

/-- `pyRange a (h + s) s` for a positive step dividing the width is exactly
the closed arithmetic sequence from `a` to `h`. -/
lemma pyRange_closed (a h s : ℤ) (hs : 0 < s) (hd : s ∣ h - a) (hnn : 0 ≤ h - a) :
    pyRange a (h + s) s =
      some ((List.range (((h - a).fdiv s).toNat + 1)).map (fun i : ℕ => a + (i : ℤ) * s)) := by
  obtain ⟨k, hk⟩ := hd
  have hk0 : 0 ≤ k := nonneg_of_mul_nonneg_right (by rw [← hk]; exact hnn) hs
  have hlen : (h + s - a + s - 1).fdiv s = k + 1 := by
    rw [Int.fdiv_eq_ediv _ hs.le]
    have e1 : h + s - a + s - 1 = (s - 1) + (k + 1) * s := by linear_combination hk
    rw [e1, Int.add_mul_ediv_right _ _ hs.ne', Int.ediv_eq_zero_of_lt (by omega) (by omega),
      zero_add]
  have hfd : (h - a).fdiv s = k := by
    rw [hk, Int.mul_fdiv_cancel_left _ hs.ne']
  have htn : (k + 1).toNat = k.toNat + 1 := by omega
  simp only [pyRange, hs.ne', if_false, if_pos hs, hlen, hfd, htn]

/-- On non-negative reference prices, positive spreads at most 1 and positive
steps, `build_grid_around` returns exactly the grid the spec describes. -/
lemma build_grid_around_eq_spec (sp : ℚ) (st p : ℤ)
    (hp : 0 ≤ p) (hsp0 : 0 < sp) (hsp1 : sp ≤ 1) (hst : 0 < st) :
    build_grid_around sp st p = some (specGridAround sp st p) := by
  have hpQ : (0 : ℚ) ≤ (p : ℚ) := by exact_mod_cast hp
  have hxl : (0 : ℚ) ≤ (p : ℚ) * (1 - sp) := mul_nonneg hpQ (by linarith)
  have hxh : (0 : ℚ) ≤ (p : ℚ) * (1 + sp) := mul_nonneg hpQ (by linarith)
  have htl : truncQ ((p : ℚ) * (1 - sp)) = ⌊(p : ℚ) * (1 - sp)⌋ := by
    simp only [truncQ, if_pos hxl]
  have hth : truncQ ((p : ℚ) * (1 + sp)) = ⌊(p : ℚ) * (1 + sp)⌋ := by
    simp only [truncQ, if_pos hxh]
  simp only [build_grid_around, specGridAround, htl, hth]
  set A := (⌊(p : ℚ) * (1 - sp)⌋).fdiv st * st with hA
  set B := (⌊(p : ℚ) * (1 + sp)⌋).fdiv st * st with hB
  by_cases hg : B ≤ A
  · simp only [if_pos hg]
    have hd : st ∣ A + st * 10 - A := ⟨10, by ring⟩
    have hnn : 0 ≤ A + st * 10 - A := by
      have : A + st * 10 - A = st * 10 := by ring
      rw [this]
      positivity
    exact pyRange_closed A (A + st * 10) st hst hd hnn
  · simp only [if_neg hg]
    have hd : st ∣ B - A :=
      ⟨(⌊(p : ℚ) * (1 + sp)⌋).fdiv st - (⌊(p : ℚ) * (1 - sp)⌋).fdiv st, by rw [hA, hB]; ring⟩
    have hnn : 0 ≤ B - A := by omega
    exact pyRange_closed A B st hst hd hnn

/-- The spec grid always steps by exactly the step between consecutive
levels. -/
lemma specGridAround_chain (sp : ℚ) (st p : ℤ) :
    List.Chain' (fun x y => y = x + st) (specGridAround sp st p) := by
  simp only [specGridAround]
  exact rangeMap_chain _ st _

end GridBot

namespace GridBot

/-- `nearest_level_self` for an arbitrary non-empty grid. -/
lemma nearest_level_self_of_mem (grid : List ℤ) (p : ℤ) (hne : grid ≠ [])
    (hpw : grid.Pairwise (· < ·)) (hmem : p ∈ grid) :
    nearest_level grid p = p := by
  cases grid with
  | nil => exact absurd rfl hne
  | cons g gs => exact nearest_level_self g gs p hpw hmem

/-- Shapes the grid phase's action log can take. -/
lemma gridPhase_acts (cfg : Config) (closest price : ℤ) (s : BotState) :
    (gridPhase cfg closest price s).2 = [Action.buy] ∨
    (gridPhase cfg closest price s).2 = [Action.sell] ∨
    (gridPhase cfg closest price s).2 = [] := by
  simp only [gridPhase]
  split_ifs <;> simp

/-- Shapes the risk phase's action log can take. -/
lemma riskPhase_acts (cfg : Config) (price : ℤ) (s : BotState) :
    (riskPhase cfg price s).2 = [Action.slSell] ∨
    (riskPhase cfg price s).2 = [Action.tpSell] ∨
    (riskPhase cfg price s).2 = [] := by
  rcases hLB : s.lastBuy with _ | e
  · simp [riskPhase, hLB]
  · simp only [riskPhase, hLB]
    split_ifs <;> simp

end GridBot

namespace Arif

/-- The fixed arif-bot grid, written out as an arithmetic range list. -/
lemma generate_grid_eq :
    generate_grid = (List.range 201).map (fun i : ℕ => GRID_LOW + (i : ℤ) * GRID_STEP) := by
  have h := GridBot.pyRange_closed GRID_LOW GRID_HIGH GRID_STEP
    (by norm_num [GRID_STEP]) (by norm_num [GRID_LOW, GRID_HIGH, GRID_STEP])
    (by norm_num [GRID_LOW, GRID_HIGH])
  rw [generate_grid, h, Option.getD_some]
  norm_num [GRID_LOW, GRID_HIGH, GRID_STEP]
  have h201 : (Int.fdiv 10000000 50000).toNat + 1 = 201 := by decide
  rw [h201]

/-- The price 1,840,000,000 is exactly on the arif grid, hence its own
nearest level. -/
lemma nearest_level_grid_1840 :
    GridBot.nearest_level generate_grid 1840000000 = 1840000000 := by
  rw [generate_grid_eq]
  refine GridBot.nearest_level_self_of_mem _ _ ?_ ?_ ?_
  · simp
  · exact GridBot.rangeMap_pairwise GRID_LOW GRID_STEP (by norm_num [GRID_STEP]) 201
  · exact List.mem_map.mpr ⟨100, List.mem_range.mpr (by norm_num),
      by norm_num [GRID_LOW, GRID_STEP]⟩

end Arif

open GridBot

/-- C1: for every tick and every sequence of applied actions (buy, sell,
stop-loss sell, take-profit sell) at positive prices, starting from
non-negative balances (and, in the arif variant, positions created only by
its own buys), the quote and base balances are non-negative before and
after every prefix of the run, in both bot variants. -/
theorem c1_balances_never_negative :
    (∀ (cfg : Config) (steps : List (List ℤ × ℤ)) (s : BotState) (n : ℕ),
        (∀ gp ∈ steps, 0 < gp.2) → 0 ≤ s.idr → 0 ≤ s.btc →
        0 ≤ (runTicks cfg (steps.take n) s).idr ∧
          0 ≤ (runTicks cfg (steps.take n) s).btc) ∧
    (∀ (prices : List ℤ) (s : Arif.State) (n : ℕ),
        (∀ p ∈ prices, 0 < p) → Arif.Inv s →
        0 ≤ (Arif.run (prices.take n) s).saldo_idr ∧
          0 ≤ (Arif.run (prices.take n) s).saldo_btc) := by
  constructor
  · intro cfg steps s n hpr h1 h2
    exact runTicks_nonneg cfg (steps.take n) s
      (fun gp hgp => hpr gp (List.take_subset n steps hgp)) h1 h2
  · intro prices s n hpr hinv
    have h := Arif.run_inv (prices.take n) s
      (fun p hp => hpr p (List.take_subset n prices hp)) hinv
    exact ⟨h.1, h.2.1⟩

theorem c1_witness :
    (0 ≤ (runTicks defaultConfig ([([900000], 925000000)].take 1) ⟨5000000, 0, none⟩).idr ∧
      0 ≤ (runTicks defaultConfig ([([900000], 925000000)].take 1) ⟨5000000, 0, none⟩).btc) ∧
    (0 ≤ (Arif.run ([1840000000].take 1) ⟨500000, 0, []⟩).saldo_idr ∧
      0 ≤ (Arif.run ([1840000000].take 1) ⟨500000, 0, []⟩).saldo_btc) := by
  constructor
  · exact c1_balances_never_negative.1 defaultConfig [([900000], 925000000)] ⟨5000000, 0, none⟩ 1
      (by intro gp hgp; rcases List.mem_singleton.mp hgp with rfl; norm_num)
      (by norm_num) (by norm_num)
  · exact c1_balances_never_negative.2 [1840000000] ⟨500000, 0, []⟩ 1
      (by intro p hp; rcases List.mem_singleton.mp hp with rfl; norm_num)
      ⟨by norm_num, le_refl 0, by simp⟩

/-- C2 counterexample: the claim says a tick never applies both a grid buy
and a grid sell, citing both sources; but in arif-bot the two checks are
independent `if` statements, and at price 1,840,000,000 (a grid level) with
enough IDR, some BTC and an older position bought at 1,835,000,000, one tick
executes the buy and then also the sell of the older position. -/
theorem c2_counterexample_arif_buy_and_sell :
    (Arif.tick 1840000000 ⟨500000, 1/100000, [(1835000000, 1/100000)]⟩).2 =
      [GridBot.Action.buy, GridBot.Action.sell] := by
  unfold Arif.tick
  rw [Arif.nearest_level_grid_1840]
  norm_num [Arif.execute_buy, Arif.execute_sell, Arif.TRADE_AMOUNT, Arif.TOLERANCE]
  simp

/-- C2 amended: in the indodax_grid_bot variant the sell rule is on the
`elif` of the buy rule, so at most one of the grid buy and the grid sell
executes in a single tick; in the arif-bot variant the two rules are
independent `if` statements and one tick can apply both. -/
theorem c2_amended_indodax_exclusive (cfg : Config) (grid : List ℤ) (price : ℤ)
    (s : BotState) :
    (tick cfg grid price s).2.contains Action.buy = false ∨
    (tick cfg grid price s).2.contains Action.sell = false := by
  by_cases hpv : s.idr + s.btc * (price : ℚ) ≤ 0
  · left
    simp [tick, if_pos hpv]
  · rw [tick_eq cfg grid price s hpv]
    rcases gridPhase_acts cfg (nearest_level grid price) price s with hg | hg | hg <;>
      rcases riskPhase_acts cfg price (gridPhase cfg (nearest_level grid price) price s).1
        with hr | hr | hr <;>
      rw [hg, hr] <;> simp

/-- C3 counterexample: with entry 1,000,000 armed, stop-loss fraction 0.05
and price 940,000 ≤ 950,000, the claim demands a stop-loss sell of the
entire base balance; but the grid buy rule fires first (price is within
tolerance of level 900,000 and funds suffice), overwrites the armed entry
with 940,000, and the tick ends with a larger base balance, no stop-loss
sell, and a live entry. -/
theorem c3_counterexample_buy_preempts_stop_loss :
    (940000 : ℚ) ≤ (1000000 : ℚ) * (1 - defaultConfig.stopLossPct) ∧
    tick defaultConfig [900000] 940000 ⟨5000000, 1/2, some 1000000⟩ =
      (⟨4999906, 5001/10000, some 940000⟩, [Action.buy]) := by
  constructor
  · norm_num [defaultConfig]
  · norm_num [tick, gridPhase, riskPhase, nearest_level, adaptive_amount,
      pick_trade_amount, simSell, simBuy, defaultConfig, List.foldl]

/-- C3 amended: when an entry E > 0 is armed, the base balance is positive
and neither grid rule fires this tick, then a price at or below
E * (1 - sl_pct) triggers a stop-loss sell of the entire base balance at the
current price, and otherwise a price at or above E * (1 + tp_pct) triggers a
take-profit sell of the entire base balance; the tracked entry returns to
NONE in both cases. (If a grid buy fires it overwrites the armed entry
before the risk check, a grid sell clears it, and with zero base balance the
entry stays armed, so those ticks are excluded.) -/
theorem c3_amended_risk_triggers (cfg : Config) (grid : List ℤ) (price : ℤ)
    (s : BotState) (E : ℤ)
    (hE : s.lastBuy = some E) (hE0 : 0 < E) (hp : 0 < price)
    (hidr : 0 ≤ s.idr) (hbtc : 0 < s.btc) (hsl : 0 ≤ cfg.stopLossPct)
    (hnb : ¬(price ≤ nearest_level grid price + cfg.tolerance ∧
      s.idr ≥ (price : ℚ) * adaptive_amount cfg price s.idr ∧
      adaptive_amount cfg price s.idr > 0))
    (hns : ¬(price ≥ nearest_level grid price - cfg.tolerance ∧
      s.btc ≥ adaptive_amount cfg price s.idr ∧
      adaptive_amount cfg price s.idr > 0)) :
    ((price : ℚ) ≤ (E : ℚ) * (1 - cfg.stopLossPct) →
      tick cfg grid price s =
        ({ idr := s.idr + (price : ℚ) * s.btc, btc := 0, lastBuy := none },
          [Action.slSell])) ∧
    (0 < cfg.takeProfitPct → (E : ℚ) * (1 + cfg.takeProfitPct) ≤ (price : ℚ) →
      tick cfg grid price s =
        ({ idr := s.idr + (price : ℚ) * s.btc, btc := 0, lastBuy := none },
          [Action.tpSell])) := by
  have hpQ : (0 : ℚ) < (price : ℚ) := by exact_mod_cast hp
  have hpv : ¬(s.idr + s.btc * (price : ℚ) ≤ 0) := by
    push_neg
    nlinarith
  have hgp := gridPhase_skip cfg (nearest_level grid price) price s hnb hns
  constructor
  · intro hslt
    rw [tick_eq cfg grid price s hpv, hgp]
    dsimp only
    rw [riskPhase_sl cfg price s E hE (by omega) ⟨hslt, hbtc⟩]
    rfl
  · intro htp0 htpt
    have hEQ : (0 : ℚ) < (E : ℚ) := by exact_mod_cast hE0
    have hslp : (E : ℚ) * (1 - cfg.stopLossPct) < (price : ℚ) := by nlinarith
    rw [tick_eq cfg grid price s hpv, hgp]
    dsimp only
    rw [riskPhase_tp cfg price s E hE (by omega)
      (fun hc => absurd hc.1 (not_le.mpr hslp)) ⟨htpt, hbtc⟩]
    rfl

theorem c3_witness :
    tick defaultConfig [800000] 900000 ⟨400000, 1/200000, some 1000000⟩ =
      (⟨800009/2, 0, none⟩, [Action.slSell]) ∧
    tick defaultConfig [800000] 1040000 ⟨400000, 1/200000, some 1000000⟩ =
      (⟨2000026/5, 0, none⟩, [Action.tpSell]) := by
  constructor
  · have h := (c3_amended_risk_triggers defaultConfig [800000] 900000
      ⟨400000, 1/200000, some 1000000⟩ 1000000 rfl (by norm_num) (by norm_num)
      (by norm_num) (by norm_num) (by norm_num [defaultConfig])
      (by norm_num [nearest_level, defaultConfig, adaptive_amount, pick_trade_amount])
      (by norm_num [nearest_level, defaultConfig, adaptive_amount, pick_trade_amount])).1
      (by norm_num [defaultConfig])
    exact h.trans (by norm_num [Prod.mk.injEq, BotState.mk.injEq])
  · have h := (c3_amended_risk_triggers defaultConfig [800000] 1040000
      ⟨400000, 1/200000, some 1000000⟩ 1000000 rfl (by norm_num) (by norm_num)
      (by norm_num) (by norm_num) (by norm_num [defaultConfig])
      (by norm_num [nearest_level, defaultConfig, adaptive_amount, pick_trade_amount])
      (by norm_num [nearest_level, defaultConfig, adaptive_amount, pick_trade_amount])).2
      (by norm_num [defaultConfig]) (by norm_num [defaultConfig])
    exact h.trans (by norm_num [Prod.mk.injEq, BotState.mk.injEq])

/-- C4 counterexample: the claim says a sell clears the tracked entry if and
only if it liquidates the full base balance, and that a partial sell leaves
it unchanged; but the simulated grid sell sets `last_buy_price = None`
unconditionally. Here the grid sell of 1/100000 BTC out of 1/2 BTC leaves
the base balance positive (49999/100000), yet the entry becomes `none`. -/
theorem c4_counterexample_partial_sell_clears_entry :
    tick defaultConfig [800000] 900000 ⟨400000, 1/2, some 800000⟩ =
      (⟨400009, 49999/100000, none⟩, [Action.sell]) := by
  norm_num [tick, gridPhase, riskPhase, nearest_level, adaptive_amount,
    pick_trade_amount, simSell, simBuy, defaultConfig, List.foldl]

/-- C4 amended: whenever the grid sell branch fires (buy rule off, sell rule
on), the tick ends with the tracked entry cleared to `none` — whether or not
the sold quantity equals the full base balance. -/
theorem c4_amended_sell_always_clears_entry (cfg : Config) (grid : List ℤ)
    (price : ℤ) (s : BotState)
    (hpv : ¬(s.idr + s.btc * (price : ℚ) ≤ 0))
    (hnb : ¬(price ≤ nearest_level grid price + cfg.tolerance ∧
      s.idr ≥ (price : ℚ) * adaptive_amount cfg price s.idr ∧
      adaptive_amount cfg price s.idr > 0))
    (hs : price ≥ nearest_level grid price - cfg.tolerance ∧
      s.btc ≥ adaptive_amount cfg price s.idr ∧
      adaptive_amount cfg price s.idr > 0) :
    (tick cfg grid price s).1.lastBuy = none ∧
    (tick cfg grid price s).2 = [Action.sell] := by
  rw [tick_eq cfg grid price s hpv,
    gridPhase_sell cfg (nearest_level grid price) price s hnb hs]
  dsimp only
  rw [riskPhase_noEntry cfg price _ rfl]
  exact ⟨rfl, rfl⟩

theorem c4_witness :
    (tick defaultConfig [800000] 900000 ⟨400000, 1/2, some 777777⟩).1.lastBuy = none ∧
    (tick defaultConfig [800000] 900000 ⟨400000, 1/2, some 777777⟩).2 = [Action.sell] :=
  c4_amended_sell_always_clears_entry defaultConfig [800000] 900000
    ⟨400000, 1/2, some 777777⟩ (by norm_num)
    (by norm_num [nearest_level, defaultConfig, adaptive_amount, pick_trade_amount])
    (by norm_num [nearest_level, defaultConfig, adaptive_amount, pick_trade_amount])

/-- C5 counterexample: the claim quantifies over every spread fraction > 0,
but for spread 3/2 (price 1, step 1) the code's Python `int(...)` truncates
`1 * (1 - 3/2) = -1/2` toward zero to 0, while the spec's floor alignment
gives -1; the code returns the grid [0, 1, 2] whereas the sequence the claim
describes is [-1, 0, 1, 2]. -/
theorem c5_counterexample_truncation_vs_floor :
    build_grid_around (3/2) 1 1 = some [0, 1, 2] ∧
    specGridAround (3/2) 1 1 = [-1, 0, 1, 2] := by
  constructor
  · norm_num [build_grid_around, truncQ, pyRange]
    decide
  · norm_num [specGridAround]
    decide

/-- C5 amended: for every non-negative reference price, spread fraction in
(0, 1] and positive step, grid construction returns exactly the closed
arithmetic sequence the spec describes (low and high floor-aligned down to
multiples of the step, degenerate widths forced to 10 steps), and
consecutive levels differ by exactly the step. On this domain the Python
truncation agrees with the floor. -/
theorem c5_amended_grid_matches_spec (sp : ℚ) (st p : ℤ)
    (hp : 0 ≤ p) (h0 : 0 < sp) (h1 : sp ≤ 1) (hst : 0 < st) :
    build_grid_around sp st p = some (specGridAround sp st p) ∧
    List.Chain' (fun x y => y = x + st) (specGridAround sp st p) :=
  ⟨build_grid_around_eq_spec sp st p hp h0 h1 hst, specGridAround_chain sp st p⟩

theorem c5_witness :
    build_grid_around (1/50) 50000 925000000 =
      some (specGridAround (1/50) 50000 925000000) ∧
    List.Chain' (fun x y => y = x + 50000) (specGridAround (1/50) 50000 925000000) :=
  c5_amended_grid_matches_spec (1/50) 50000 925000000 (by norm_num) (by norm_num)
    (by norm_num) (by norm_num)

/-- C6: on every non-empty strictly increasing grid, `nearest_level` returns
a grid level minimizing the absolute distance to the price, and on a
distance tie it returns the lower level. -/
theorem c6_nearest_level_minimizes (grid : List ℤ) (p : ℤ)
    (hne : grid ≠ []) (hpw : grid.Pairwise (· < ·)) :
    nearest_level grid p ∈ grid ∧
    (∀ l ∈ grid, |nearest_level grid p - p| ≤ |l - p|) ∧
    (∀ l ∈ grid, |l - p| = |nearest_level grid p - p| → nearest_level grid p ≤ l) := by
  cases grid with
  | nil => exact absurd rfl hne
  | cons g gs => exact nearest_level_spec g gs p hpw

theorem c6_witness :
    nearest_level [100, 150, 200] 125 = 100 ∧
    |nearest_level [100, 150, 200] 125 - 125| ≤ |150 - 125| ∧
    nearest_level [100, 150, 200] 125 ≤ 150 := by
  have h := c6_nearest_level_minimizes [100, 150, 200] 125 (by decide) (by decide)
  exact ⟨by decide, h.2.1 150 (by decide), h.2.2 150 (by decide) (by decide)⟩

/-- C7: the trade sizer maps balance 400,000 to tier 0.00001, 2,000,000 to
0.00005 and 60,000,000 to 0.001; and whenever the chosen tier amount times
the price exceeds `max_notional`, the amount actually used is clamped down
to `max_notional / price`. -/
theorem c7_trade_sizer_tiers_and_clamp (cfg : Config) (price : ℤ) (idr : ℚ) :
    pick_trade_amount 400000 = 1/100000 ∧
    pick_trade_amount 2000000 = 5/100000 ∧
    pick_trade_amount 60000000 = 1/1000 ∧
    ((price : ℚ) * pick_trade_amount idr > cfg.maxIdrPerOrder →
      adaptive_amount cfg price idr = cfg.maxIdrPerOrder / (price : ℚ)) := by
  refine ⟨by norm_num [pick_trade_amount], by norm_num [pick_trade_amount],
    by norm_num [pick_trade_amount], ?_⟩
  intro h
  simp only [adaptive_amount, if_pos h]

theorem c7_witness :
    (100000000000 : ℚ) * pick_trade_amount 400000 > defaultConfig.maxIdrPerOrder ∧
    adaptive_amount defaultConfig 100000000000 400000 =
      defaultConfig.maxIdrPerOrder / (100000000000 : ℚ) := by
  refine ⟨by norm_num [pick_trade_amount, defaultConfig], ?_⟩
  exact (c7_trade_sizer_tiers_and_clamp defaultConfig 100000000000 400000).2.2.2
    (by norm_num [pick_trade_amount, defaultConfig])

/-- C8 counterexample: the claim says grid construction fails whenever
`spread_fraction <= 0`; but `build_grid_around` performs no validation and,
with the default step 50000 and the negative spread -1/100, still returns a
grid (the degenerate-width guard widens it instead). -/
theorem c8_counterexample_negative_spread_returns_grid :
    (build_grid_around (-1/100) 50000 925000000).isSome = true := by
  simp only [build_grid_around, pyRange]
  norm_num

/-- C8 amended: grid construction never raises `InvalidConfiguration`; the
only failing input is step = 0 (Python `range` raises `ValueError`), and for
every spread fraction — positive or not — and every non-zero step, including
negative ones, it returns a grid list. -/
theorem c8_amended_fails_only_on_zero_step (g : ℚ) (st p : ℤ) :
    (build_grid_around g st p).isSome = (st != 0) := by
  rcases eq_or_ne st 0 with rfl | h
  · simp [build_grid_around, pyRange]
  · simp [build_grid_around, pyRange, h]

/-- C9: a buy of q at price p followed immediately by a full sell of q at
the same price restores both the quote and the base balance to their
pre-buy values (the simulated ledger charges no fees). -/
theorem c9_round_trip (price : ℤ) (q : ℚ) (s : BotState)
    (hq : 0 < q) (hfunds : (price : ℚ) * q ≤ s.idr) :
    (simSell price q (simBuy price q s)).idr = s.idr ∧
    (simSell price q (simBuy price q s)).btc = s.btc := by
  constructor <;> simp [simBuy, simSell]

theorem c9_witness :
    (0 : ℚ) < 1/100000 ∧
    ((1000000 : ℤ) : ℚ) * (1/100000) ≤ (500000 : ℚ) ∧
    (simSell 1000000 (1/100000) (simBuy 1000000 (1/100000) ⟨500000, 2, none⟩)).idr = 500000 ∧
    (simSell 1000000 (1/100000) (simBuy 1000000 (1/100000) ⟨500000, 2, none⟩)).btc = 2 := by
  refine ⟨by norm_num, by norm_num, ?_⟩
  exact c9_round_trip 1000000 (1/100000) ⟨500000, 2, none⟩ (by norm_num) (by norm_num)

/-- C10: the tier selector is total and monotone non-decreasing in the
balance, its value is always one of the four tier amounts, and it is
strictly positive on every input, including zero and negative balances. -/
theorem c10_pick_trade_amount_monotone_total :
    (∀ b1 b2 : ℚ, b1 ≤ b2 → pick_trade_amount b1 ≤ pick_trade_amount b2) ∧
    (∀ b : ℚ, (pick_trade_amount b = 1/100000 ∨ pick_trade_amount b = 5/100000 ∨
      pick_trade_amount b = 1/10000 ∨ pick_trade_amount b = 1/1000) ∧
      0 < pick_trade_amount b) := by
  constructor
  · intro b1 b2 h
    unfold pick_trade_amount
    split_ifs <;> linarith
  · intro b
    unfold pick_trade_amount
    split_ifs <;> norm_num

theorem c10_witness :
    pick_trade_amount (-5) ≤ pick_trade_amount 60000000 ∧
    0 < pick_trade_amount 0 :=
  ⟨c10_pick_trade_amount_monotone_total.1 (-5) 60000000 (by norm_num),
    (c10_pick_trade_amount_monotone_total.2 0).2⟩
